import Mathlib

/-!
Verification of the transaction-import pipeline of the `catr` repository
(`src/lib/utils/transactionApi.ts`, `src/lib/stores/storage.ts`).

The TypeScript source is shallowly embedded: nullable JavaScript string
values (`string | null | undefined`) become the three-valued `JSVal`;
ISO-8601 timestamp strings, which the source only ever compares after
`new Date(s).getTime()`, are abstracted to their epoch-millisecond value
(`Int`); `BigNumber` decimal values become `ℚ`; network I/O becomes an
explicit oracle argument; thrown exceptions become `Except` / `Option`
error components; the persistent `localStorage`-backed store becomes an
explicit state value threaded through the stage functions.
-/

namespace Catr

/-- Model of a JavaScript `string | null | undefined` value, as stored in
record fields and compared with `===` by the source. -/
inductive JSVal where
  | undef
  | null
  | str (s : String)
deriving DecidableEq, Repr

/-- JavaScript strict equality `===` restricted to our value space:
`undefined === undefined` and `null === null` are `true`, strings compare
by content, and any mixed comparison is `false`. -/
def JSVal.strictEq : JSVal → JSVal → Bool
  | .undef, .undef => true
  | .null, .null => true
  | .str a, .str b => a == b
  | _, _ => false

/-- Model of JavaScript `s.toLowerCase()` (character-wise lowercasing; the
addresses the source compares are ASCII hex strings). -/
def lowerStr (s : String) : String := String.mk (s.data.map Char.toLower)

/-- Model of the optional-chaining call `v?.toLowerCase()`: `undefined` and
`null` both produce `undefined` (here `none`), a string is lowercased. -/
def JSVal.lower? : JSVal → Option String
  | .str s => some (lowerStr s)
  | _ => none

/-- Model of `a?.toLowerCase() === b?.toLowerCase()`: two absent values
(each `undefined` or `null`) compare equal, strings compare
case-insensitively. -/
def JSVal.lowerEq (a b : JSVal) : Bool := a.lower? == b.lower?

/-- Hex value of one character, case-insensitive (JS `parseInt(_, 16)` and
`BigNumber(_, 16)` both accept either case). -/
def hexDigit? (c : Char) : Option Nat :=
  if '0' ≤ c ∧ c ≤ '9' then some (c.toNat - '0'.toNat)
  else if 'a' ≤ c ∧ c ≤ 'f' then some (c.toNat - 'a'.toNat + 10)
  else if 'A' ≤ c ∧ c ≤ 'F' then some (c.toNat - 'A'.toNat + 10)
  else none

/-- Strip a leading `0x` / `0X` from a character list, if present. -/
def stripHexMarker : List Char → List Char
  | '0' :: 'x' :: rest => rest
  | '0' :: 'X' :: rest => rest
  | l => l

/-- Accumulate the value of leading hex digits; stops at the first
non-hex character (the `parseInt` behaviour). Returns the value together
with how many digits were consumed. -/
def hexPrefixValue : List Char → Nat → Nat × Nat
  | [], acc => (acc, 0)
  | c :: rest, acc =>
    match hexDigit? c with
    | some d =>
      let (v, n) := hexPrefixValue rest (acc * 16 + d)
      (v, n + 1)
    | none => (acc, 0)

/-- Model of JavaScript `parseInt(s, 16)`: optional `0x`/`0X` marker, then
the longest run of leading hex digits; `none` models `NaN` (no digits). -/
def parseIntHex? (s : String) : Option Nat :=
  let cs := stripHexMarker s.data
  let (v, n) := hexPrefixValue cs 0
  if n = 0 then none else some v

/-- Model of `new BigNumber(s, 16)` on integer input: a `0x`/`0X` marker is
stripped (the library's `parseNumeric` fallback honours base prefixes when
the explicit base agrees), then every remaining character must be a hex
digit; `none` models `NaN`. -/
def parseHexBN? (s : String) : Option Nat :=
  let cs := stripHexMarker s.data
  if cs.isEmpty then none
  else
    cs.foldl (fun acc c =>
      match acc, hexDigit? c with
      | some v, some d => some (v * 16 + d)
      | _, _ => none) (some 0)

/-- Decimal digit value. -/
def decDigit? (c : Char) : Option Nat :=
  if '0' ≤ c ∧ c ≤ '9' then some (c.toNat - '0'.toNat) else none

/-- Value of a run of decimal digits, if all characters are digits. -/
def decDigitsValue? (cs : List Char) : Option Nat :=
  cs.foldl (fun acc c =>
    match acc, decDigit? c with
    | some v, some d => some (v * 10 + d)
    | _, _ => none) (some 0)

/-- Exact model of a non-negative `BigNumber` value: a decimal mantissa and
scale denoting `m / 10^s` (the library stores decimal digits with an
exponent; the pipeline only ever produces non-negative values). -/
structure Dec where
  m : Nat
  s : Nat
deriving DecidableEq, Repr

/-- The rational value a `Dec` denotes. -/
def Dec.toQ (d : Dec) : ℚ := (d.m : ℚ) / (10 : ℚ) ^ d.s

/-- `BigNumber.multipliedBy` — exact (multiplication is not subject to the
`DECIMAL_PLACES` setting). -/
def Dec.mul (a b : Dec) : Dec := ⟨a.m * b.m, a.s + b.s⟩

/-- `BigNumber.dividedBy` under the repository's global configuration
(`DECIMAL_PLACES: 18`, `ROUNDING_MODE: ROUND_DOWN`): the quotient is
rounded down to 18 decimal places; `Nat` floor division realises the
round-down on the non-negative operands the pipeline uses. -/
def Dec.div18RoundDown (a b : Dec) : Dec :=
  ⟨a.m * 10 ^ (b.s + 18) / (b.m * 10 ^ a.s), 18⟩

/-- Model of `new BigNumber(s)` on a plain non-negative decimal string such
as `"2000"` or `"1850.25"`: integer part, optional `.` and fractional part.
`none` models `NaN`. -/
def parseDecBN? (s : String) : Option Dec :=
  match s.data.splitOn '.' with
  | [ip] =>
    if ip.isEmpty then none else (decDigitsValue? ip).map (fun v => ⟨v, 0⟩)
  | [ip, fp] =>
    if ip.isEmpty ∧ fp.isEmpty then none
    else
      match decDigitsValue? ip, decDigitsValue? fp with
      | some i, some f => some ⟨i * 10 ^ fp.length + f, fp.length⟩
      | _, _ => none
  | _ => none

/-- Zero-pad a string on the left to length `n` (used to render fixed-width
fractional parts). -/
def padLeftZeros (s : String) (n : Nat) : String :=
  String.mk (List.replicate (n - s.length) '0') ++ s

/-- Model of `BigNumber.toFixed(n)` under the repository's global
configuration (`ROUNDING_MODE: ROUND_DOWN`) for the non-negative values the
pipeline produces: truncate to `n` decimal places and render with exactly
`n` fractional digits. -/
def Dec.toFixed (n : Nat) (d : Dec) : String :=
  let scaled := d.m * 10 ^ n / 10 ^ d.s
  let ip := scaled / 10 ^ n
  let fp := scaled % 10 ^ n
  if n = 0 then toString ip
  else toString ip ++ "." ++ padLeftZeros (toString fp) n

/-- Model of the template `` `0x${latestBlockNum.toString(16)}` ``:
lowercase hex digits behind a `0x` marker. -/
def natToHex (n : Nat) : String :=
  String.mk ('0' :: 'x' :: Nat.toDigits 16 n)

/-! ## Data model (`src/lib/types/index.ts`) -/

/-- One element of `response.result.transfers` as the chain data source
returns it (`alchemy_getAssetTransfers`). `fromA`/`toA` stand for the
source's `from`/`to` (a Lean keyword); `rawContract_address` is
`transfer.rawContract?.address`, `rawContract_decimal` is
`transfer.rawContract?.decimal`, `metadata_blockTimestamp` is
`transfer.metadata?.blockTimestamp` abstracted to epoch milliseconds. -/
structure Transfer where
  blockNum : String
  uniqueId : String
  hash : String
  fromA : JSVal
  toA : JSVal
  value : Option String
  asset : String
  category : String
  rawContract_address : JSVal
  rawContract_decimal : Option String
  metadata_blockTimestamp : Option Int
deriving DecidableEq, Repr

/-- `RawTransaction` record as persisted by the store; `timestamp` and
`created_at` are ISO strings abstracted to epoch milliseconds. -/
structure RawTransaction where
  id : String
  wallet_address : String
  block_num : String
  unique_id : String
  hash : String
  from_address : JSVal
  to_address : JSVal
  value : String
  asset : String
  category : String
  contract_address : JSVal
  decimals : Nat
  timestamp : Int
  transaction_class : String
  created_at : Int
deriving DecidableEq, Repr

/-- `AddressClassification` rule (`wallet_address` / `contract_address` are
optional fields). -/
structure AddressClassification where
  name : String
  wallet_address : JSVal
  contract_address : JSVal
  transaction_class : String
deriving DecidableEq, Repr

/-- `GasTransaction` record. -/
structure GasTransaction where
  id : String
  wallet_address : String
  hash : String
  block_num : String
  gas_used : String
  gas_price : String
  gas_cost_eth : String
  gas_cost_usd : String
  timestamp : Int
  created_at : Int
deriving DecidableEq, Repr

/-- `HistoricalPrice` record; `timestamp`/`created_at` abstracted to epoch
milliseconds (the source compares timestamps only via `Date.getTime()` or
`===` on uniformly formatted ISO strings). -/
structure HistoricalPrice where
  symbol : JSVal
  contract_address : JSVal
  network : JSVal
  price : String
  currency : String
  timestamp : Int
  source : String
  created_at : Int
deriving DecidableEq, Repr

/-- `Wallet` record. -/
structure Wallet where
  address : String
  name : Option String
  last_sync : Option Int
deriving DecidableEq, Repr

/-! ## Classification engine (`classifyTransaction`, part_000 lines 877-899) -/

/-- Direct embedding of `classifyTransaction`: find the first rule whose
`wallet_address?.toLowerCase()` strictly equals `transfer.from?.toLowerCase()`
or whose `contract_address?.toLowerCase()` strictly equals
`transfer.rawContract?.address?.toLowerCase()` (so two absent values compare
equal), analogously for `to`; an incoming transfer (`to` equals the owner
wallet case-insensitively) uses the from-rule's class defaulting to
`OtherIncome`, an outgoing one the to-rule's class defaulting to
`Withdraw`. -/
def classifyTransaction (classifications : List AddressClassification)
    (transfer : Transfer) (walletAddress : String) : String :=
  let fromClassification := classifications.find? (fun c =>
    JSVal.lowerEq c.wallet_address transfer.fromA ||
    JSVal.lowerEq c.contract_address transfer.rawContract_address)
  let toClassification := classifications.find? (fun c =>
    JSVal.lowerEq c.wallet_address transfer.toA ||
    JSVal.lowerEq c.contract_address transfer.rawContract_address)
  if transfer.toA.lower? == some (lowerStr walletAddress) then
    (fromClassification.map (·.transaction_class)).getD "OtherIncome"
  else
    (toClassification.map (·.transaction_class)).getD "Withdraw"

/-- Case-insensitive equality of two values that both must be present, as
the specification's words describe rule matching ("whose walletAddress
equals the transfer's from address"): an absent field never matches. -/
def presentLowerEq : JSVal → JSVal → Bool
  | .str a, .str b => lowerStr a == lowerStr b
  | _, _ => false

/-- Classification as the claim states it (strict reading: a rule matches
only through fields that are actually present on both sides). -/
def classifyClaimStrict (classifications : List AddressClassification)
    (transfer : Transfer) (walletAddress : String) : String :=
  let fromRule := classifications.find? (fun c =>
    presentLowerEq c.wallet_address transfer.fromA ||
    presentLowerEq c.contract_address transfer.rawContract_address)
  let toRule := classifications.find? (fun c =>
    presentLowerEq c.wallet_address transfer.toA ||
    presentLowerEq c.contract_address transfer.rawContract_address)
  if presentLowerEq transfer.toA (.str walletAddress) then
    (fromRule.map (·.transaction_class)).getD "OtherIncome"
  else
    (toRule.map (·.transaction_class)).getD "Withdraw"

/-- Classification as the amended claim states it: identical rule selection
and defaulting, but matching uses JavaScript loose-presence equality — two
absent values (`undefined` or `null`, which optional chaining collapses)
compare equal, present strings compare case-insensitively. -/
def classifyClaimAmended (classifications : List AddressClassification)
    (transfer : Transfer) (walletAddress : String) : String :=
  let matchAgainst := fun (addr : JSVal) (c : AddressClassification) =>
    c.wallet_address.lower? == addr.lower? ||
    c.contract_address.lower? == transfer.rawContract_address.lower?
  let fromRule := classifications.find? (matchAgainst transfer.fromA)
  let toRule := classifications.find? (matchAgainst transfer.toA)
  match fromRule, toRule with
  | fr, tr =>
    if transfer.toA.lower? == some (lowerStr walletAddress) then
      (fr.map (·.transaction_class)).getD "OtherIncome"
    else
      (tr.map (·.transaction_class)).getD "Withdraw"

/-! ## Store append operations (`src/lib/stores/storage.ts`) -/

/-- The `forEach` body of `addRawTransactions`: push `tx` onto `combined`
unless a record with the same `id` is already there. -/
def addRawStep (combined : List RawTransaction) (tx : RawTransaction) :
    List RawTransaction :=
  if (combined.find? (fun t => t.id == tx.id)).isSome then combined
  else combined ++ [tx]

/-- Embedding of `StorageService.addRawTransactions` (part_002 lines
162-173): fold the incoming batch over the existing list, appending each
record only when no record with the same `id` is already present (the
accumulator includes records appended earlier in the same batch). -/
def addRawTransactions (existing : List RawTransaction)
    (transactions : List RawTransaction) : List RawTransaction :=
  transactions.foldl addRawStep existing

/-- Embedding of `StorageService.addGasTransactions` (part_002 lines
193-204): append-if-id-absent, like `addRawTransactions`. -/
def addGasTransactions (existing : List GasTransaction)
    (gasTransactions : List GasTransaction) : List GasTransaction :=
  gasTransactions.foldl (fun combined gas =>
    if (combined.find? (fun g => g.id == gas.id)).isSome then combined
    else combined ++ [gas]) existing

/-- The match condition of `addHistoricalPrices` (part_002 lines 221-225):
`(p.symbol === price.symbol || p.contract_address === price.contract_address)
&& p.network === price.network && p.timestamp === price.timestamp`. -/
def histPriceMatches (p price : HistoricalPrice) : Bool :=
  (p.symbol.strictEq price.symbol ||
   p.contract_address.strictEq price.contract_address) &&
  p.network.strictEq price.network &&
  p.timestamp == price.timestamp

/-- Embedding of `StorageService.addHistoricalPrices` (part_002 lines
216-235): each incoming price replaces the first stored record satisfying
`histPriceMatches`, or is appended when none does. -/
def addHistoricalPrices (existing : List HistoricalPrice)
    (prices : List HistoricalPrice) : List HistoricalPrice :=
  prices.foldl (fun combined price =>
    match combined.findIdx? (fun p => histPriceMatches p price) with
    | some i => combined.set i price
    | none => combined ++ [price]) existing

/-- Embedding of `StorageService.updateWalletSync` (part_002 lines 46-53):
set `last_sync` on the first wallet whose address strictly equals the
given one; no-op when no wallet matches. -/
def updateWalletSync (address : String) (nowMs : Int) :
    List Wallet → List Wallet
  | [] => []
  | w :: ws =>
    if w.address == address then { w with last_sync := some nowMs } :: ws
    else w :: updateWalletSync address nowMs ws

/-! ## Stage 1: transfer ingestion (part_000 lines 603-680) -/

/-- The composite transfer id `` `${transfer.blockNum}_${transfer.uniqueId}` ``. -/
def mkTxId (t : Transfer) : String := t.blockNum ++ "_" ++ t.uniqueId

/-- The mapping from an API transfer to the persisted `RawTransaction`
(part_000 lines 635-655), including the classification call and the
defensive defaults (`value ?? '0'`, `decimals` default 18, timestamp
default "now"). -/
def transferToRaw (rules : List AddressClassification) (walletAddress : String)
    (nowMs : Int) (t : Transfer) : RawTransaction :=
  { id := mkTxId t
    wallet_address := walletAddress
    block_num := t.blockNum
    unique_id := t.uniqueId
    hash := t.hash
    from_address := t.fromA
    to_address := t.toA
    value := t.value.getD "0"
    asset := t.asset
    category := t.category
    contract_address := t.rawContract_address
    decimals := match t.rawContract_decimal with
      | some d => (parseIntHex? d).getD 18
      | none => 18
    timestamp := t.metadata_blockTimestamp.getD nowMs
    transaction_class := classifyTransaction rules t walletAddress
    created_at := nowMs }

/-- Processing of one page of transfers (part_000 lines 626-667): pre-filter
out transfers whose composite id is already in the global raw-transaction
store, map the survivors through `transferToRaw`, and append the non-empty
batch via `addRawTransactions`. -/
def importTransfersPage (rules : List AddressClassification)
    (walletAddress : String) (nowMs : Int)
    (store : List RawTransaction) (transfers : List Transfer) :
    List RawTransaction :=
  let rawTransactions :=
    (transfers.filter (fun t =>
      !(store.find? (fun tx => tx.id == mkTxId t)).isSome)).map
      (transferToRaw rules walletAddress nowMs)
  if rawTransactions.length > 0 then addRawTransactions store rawTransactions
  else store

/-- One page of the paginated transfer response: the `transfers` array and
the optional continuation `pageKey`. -/
structure TransfersPage where
  transfers : List Transfer
  pageKey : Option String
deriving DecidableEq, Repr

/-- A JavaScript `Error` as the retry logic inspects it: its `message` and
an optional `status` property. -/
structure JsError where
  message : String
  status : Option Nat
deriving DecidableEq, Repr

/-- Decidable equality for `Except` outcomes (used to state results of
fallible calls). -/
instance {ε α : Type} [DecidableEq ε] [DecidableEq α] :
    DecidableEq (Except ε α) := fun a b =>
  match a, b with
  | .ok x, .ok y =>
    if h : x = y then isTrue (by rw [h])
    else isFalse (fun c => by cases c; exact h rfl)
  | .error x, .error y =>
    if h : x = y then isTrue (by rw [h])
    else isFalse (fun c => by cases c; exact h rfl)
  | .ok _, .error _ => isFalse (fun c => by cases c)
  | .error _, .ok _ => isFalse (fun c => by cases c)

/-- The `do … while (pageKey)` pagination loop of `importAssetTransfers`:
each oracle element is the outcome of one `getAssetTransfers` call; a
thrown error aborts the loop (re-thrown by the stage), a page is imported
and the loop continues exactly when the response carries a `pageKey`. -/
def importAssetTransfersRun (rules : List AddressClassification)
    (walletAddress : String) (nowMs : Int) :
    List (Except JsError TransfersPage) → List RawTransaction →
    List RawTransaction × Option JsError
  | [], store => (store, none)
  | r :: rest, store =>
    match r with
    | .error e => (store, some e)
    | .ok page =>
      let store' := importTransfersPage rules walletAddress nowMs store
        page.transfers
      match page.pageKey with
      | none => (store', none)
      | some _ => importAssetTransfersRun rules walletAddress nowMs rest store'

/-! ## Resumption cursor (part_000 lines 529-536) -/

/-- `Math.max(...existingTransactions.map(tx => parseInt(tx.block_num, 16)))`
with NaN poisoning: `none` when some `block_num` fails to parse (`NaN`
propagates through `Math.max`), otherwise the maximum parsed value. Only
used on non-empty lists (the source guards on `length > 0`). -/
def maxParsedBlock (txs : List RawTransaction) : Option Nat :=
  txs.foldl (fun acc tx =>
    match acc, parseIntHex? tx.block_num with
    | some m, some v => some (max m v)
    | _, _ => none) (some 0)

/-- The resumption cursor of `importTransactionsForWallet`: `latestBlockNum`
is 0 for an empty store, else the (possibly NaN) maximum parsed block; the
cursor is `` `0x${latestBlockNum.toString(16)}` `` when `latestBlockNum > 0`
(false for NaN) and `undefined` otherwise. -/
def computeFromBlock (txs : List RawTransaction) : Option String :=
  if txs.isEmpty then none
  else
    match maxParsedBlock txs with
    | some m => if m > 0 then some (natToHex m) else none
    | none => none

/-- The parameter object built by `getAssetTransfers` (part_000 lines
901-929), restricted to the varying fields: `fromBlock` and `pageKey` are
attached only when truthy (a JS `if (fromBlock)` guard, so the empty string
is also dropped). -/
structure AssetTransferParams where
  toAddress : String
  fromBlock : Option String
  pageKey : Option String
deriving DecidableEq, Repr

/-- Builds the request parameters, modelling the truthiness guards. -/
def getAssetTransfersParams (address : String)
    (fromBlock pageKey : Option String) : AssetTransferParams :=
  { toAddress := address
    fromBlock := match fromBlock with
      | some s => if s == "" then none else some s
      | none => none
    pageKey := match pageKey with
      | some s => if s == "" then none else some s
      | none => none }

/-- The sequence of transfer requests Stage 1 issues for a given oracle of
responses: every iteration of the loop calls `getAssetTransfers` with the
same `fromBlock` cursor and the `pageKey` of the previous response. -/
def stage1Requests (address : String) (fromBlock : Option String) :
    List (Except JsError TransfersPage) → Option String →
    List AssetTransferParams
  | [], _ => []
  | r :: rest, cursor =>
    getAssetTransfersParams address fromBlock cursor ::
      match r with
      | .error _ => []
      | .ok page =>
        match page.pageKey with
        | none => []
        | some pk => stage1Requests address fromBlock rest (some pk)

/-! ## Rate-limited request client (part_000 lines 384-497) -/

/-- `this.maxRetries = 3`. -/
def maxRetries : Nat := 3

/-- Whether `pat` starts the character list. -/
def charsStart : List Char → List Char → Bool
  | [], _ => true
  | _ :: _, [] => false
  | p :: ps, c :: cs => p == c && charsStart ps cs

/-- Whether `pat` occurs somewhere in the character list. -/
def charsContain (pat : List Char) : List Char → Bool
  | [] => pat.isEmpty
  | c :: rest => charsStart pat (c :: rest) || charsContain pat rest

/-- Model of JavaScript `s.includes(pat)`. -/
def containsSub (s pat : String) : Bool := charsContain pat.data s.data

/-- `error.message?.includes('429') || error.status === 429`. -/
def isRateLimit (e : JsError) : Bool :=
  containsSub e.message "429" || e.status == some 429

/-- `error.message?.includes('timeout') || error.message?.includes('AbortError')`. -/
def isTimeoutErr (e : JsError) : Bool :=
  containsSub e.message "timeout" || containsSub e.message "AbortError"

/-- The success-path decay of the shared `rateLimitDelay`:
`Math.max(100, delay * 0.9)` applied only when the delay exceeds 100. -/
def decayDelay (delay : ℚ) : ℚ :=
  if delay > 100 then max 100 (delay * 9 / 10) else delay

/-- Embedding of `retryWithBackoff` (part_000 lines 426-467). The operation
is modelled as a function of the attempt index (`retryCount`); the result
carries the operation outcome, the list of back-off waits slept between
attempts (in ms), and the final value of the shared `rateLimitDelay`. On
success the shared delay decays via `decayDelay`; on a rate-limit/timeout
failure with retries left it doubles (capped at 10000), the wait is
`delay + retryCount * 2000`, and the call recurses; any other failure — or
an exhausted retry budget — surfaces the error. The recursion is made
structural on `remaining = maxRetries - retryCount` (the source's guard
`retryCount < this.maxRetries` is exactly `remaining > 0`, since every
call starts at `retryCount = 0`). -/
def retryWithBackoffAux {α : Type} (op : Nat → Except JsError α) :
    Nat → ℚ → Except JsError α × List ℚ × ℚ
  | 0, delay =>
    match op maxRetries with
    | .ok result => (.ok result, [], decayDelay delay)
    | .error e => (.error e, [], delay)
  | r + 1, delay =>
    match op (maxRetries - (r + 1)) with
    | .ok result => (.ok result, [], decayDelay delay)
    | .error e =>
      if isRateLimit e || isTimeoutErr e then
        let delay' := min 10000 (delay * 2)
        let waitTime := delay' + ((maxRetries - (r + 1) : Nat) : ℚ) * 2000
        let rest := retryWithBackoffAux op r delay'
        (rest.1, waitTime :: rest.2.1, rest.2.2)
      else (.error e, [], delay)

/-- `retryWithBackoff(operation, context)` as called with the default
`retryCount = 0`: the full retry budget is available. -/
def retryWithBackoff {α : Type} (op : Nat → Except JsError α) (delay : ℚ) :
    Except JsError α × List ℚ × ℚ :=
  retryWithBackoffAux op maxRetries delay

/-! ## Gas cost arithmetic (`calculateGasCost`, part_000 lines 968-989) -/

/-- The pair of rendered cost strings `calculateGasCost` returns. -/
structure GasCost where
  ethCost : String
  usdCost : String
deriving DecidableEq, Repr

/-- Embedding of `calculateGasCost`: parse both gas inputs as base-16
`BigNumber`s and the ETH price as a decimal, compute
`gasUsed × gasPrice ÷ 10¹⁸` and its USD value, and render them with
`toFixed(18)` / `toFixed(2)`. `none` models the NaN outcome on unparseable
input (the library renders `"NaN"` instead of throwing, so the `catch`
branch returning `('0','0')` is unreachable). -/
def calculateGasCost (gasUsed gasPrice ethPrice : String) : Option GasCost :=
  match parseHexBN? gasUsed, parseHexBN? gasPrice, parseDecBN? ethPrice with
  | some g, some p, some q =>
    let ethCost := Dec.div18RoundDown (Dec.mul ⟨g, 0⟩ ⟨p, 0⟩) ⟨10 ^ 18, 0⟩
    let usdCost := Dec.mul ethCost q
    some { ethCost := ethCost.toFixed 18, usdCost := usdCost.toFixed 2 }
  | _, _, _ => none

/-- The rendered cost strings as the gas stage consumes them: the NaN case
becomes the literal `"NaN"` strings `BigNumber.toFixed` produces. -/
def gasCostStrings (gasUsed gasPrice ethPrice : String) : String × String :=
  match calculateGasCost gasUsed gasPrice ethPrice with
  | some gc => (gc.ethCost, gc.usdCost)
  | none => ("NaN", "NaN")

/-! ## Historical price cache (part_000 lines 792-875) -/

/-- One point of a historical price series response. -/
structure PricePoint where
  value : String
  timestamp : Int
deriving DecidableEq, Repr

/-- The parsed body of a historical-price response: its `data` array and
optional `currency`. -/
structure PriceSeries where
  data : List PricePoint
  currency : Option String
deriving DecidableEq, Repr

/-- Embedding of `findExistingPrice` (part_000 lines 838-850): the first
stored price whose `symbol === asset` or `contract_address ===
contractAddress` (JavaScript strict equality), whose `network` equals the
given network, and whose timestamp lies within five minutes (300000 ms,
inclusive) of the target. -/
def findExistingPrice (existingPrices : List HistoricalPrice) (asset : String)
    (contractAddress : JSVal) (network : String) (timestampMs : Int) :
    Option HistoricalPrice :=
  existingPrices.find? (fun price =>
    (price.symbol.strictEq (.str asset) ||
     price.contract_address.strictEq contractAddress) &&
    price.network.strictEq (.str network) &&
    (price.timestamp - timestampMs).natAbs ≤ 300000)

/-- The per-transfer body of Stage 3 (part_000 lines 792-831): on a cache
hit the transfer is skipped (`continue`) with no fetch; otherwise the
series fetch outcome is consulted (a thrown error is caught and skipped),
and a non-empty series is merged via `addHistoricalPrices`. The boolean
records whether a fetch was attempted for this transfer. -/
def priceBackfillStep (network : String) (nowMs : Int)
    (fetchOutcome : Except JsError PriceSeries)
    (prices : List HistoricalPrice) (tx : RawTransaction) :
    List HistoricalPrice × Bool :=
  if (findExistingPrice prices tx.asset tx.contract_address network
      tx.timestamp).isSome then
    (prices, false)
  else
    match fetchOutcome with
    | .error _ => (prices, true)
    | .ok priceData =>
      if priceData.data.length > 0 then
        (addHistoricalPrices prices (priceData.data.map (fun pt =>
          { symbol := .str tx.asset
            contract_address := tx.contract_address
            network := .str network
            price := pt.value
            currency := priceData.currency.getD "usd"
            timestamp := pt.timestamp
            source := "alchemy_historical"
            created_at := nowMs })), true)
      else (prices, true)

/-- Embedding of `getEthPriceAtTime` (part_000 lines 852-875): first check
the stored prices via `findExistingPrice('ETH', null, 'eth-mainnet', t)`;
on a miss consult the fetch outcome (a thrown error is caught), taking the
first data point's value; in every remaining case return the hard-coded
default `"2000"`. Totality of this function is the "never throws" part of
the claim. -/
def getEthPriceAtTime (prices : List HistoricalPrice)
    (fetchOutcome : Except JsError PriceSeries) (timeMs : Int) : String :=
  match findExistingPrice prices "ETH" .null "eth-mainnet" timeMs with
  | some existingPrice => existingPrice.price
  | none =>
    match fetchOutcome with
    | .ok priceData =>
      match priceData.data with
      | pt :: _ => pt.value
      | [] => "2000"
    | .error _ => "2000"

/-! ## Stages 2-4 and the orchestrator (part_000 lines 519-836) -/

/-- The fields of an `eth_getTransactionReceipt` result the gas stage
reads. -/
structure Receipt where
  gasUsed : String
  effectiveGasPrice : String
  blockNumber : String
deriving DecidableEq, Repr

/-- The whole persisted store (`localStorage` collections). -/
structure Store where
  wallets : List Wallet
  rawTxs : List RawTransaction
  gasTxs : List GasTransaction
  prices : List HistoricalPrice
deriving DecidableEq, Repr

/-- `[...new Set(list)]` on strings: first-occurrence-preserving dedup. -/
def dedupFirst (l : List String) : List String :=
  l.foldl (fun acc h => if acc.contains h then acc else acc ++ [h]) []

set_option linter.unusedVariables false in
/-- Embedding of `importGasFees` (part_000 lines 682-762): the unique
transfer hashes of the wallet without an existing gas record are processed
sequentially; a failed receipt lookup is caught and skipped; a present
receipt yields one gas record priced via `getEthPriceAtTime`; the
collected batch is appended (deduplicated by id) when non-empty. The
receipt and ETH-price fetches are oracle parameters. -/
def importGasFees (walletAddress network : String) (nowMs : Int)
    (receiptOf : String → Except JsError (Option Receipt))
    (ethFetch : Int → Except JsError PriceSeries)
    (s : Store) : Store :=
  let transactions := s.rawTxs.filter (fun tx =>
    tx.wallet_address == walletAddress)
  let uniqueHashes := (dedupFirst (transactions.map (·.hash))).filter
    (fun h => ¬ (s.gasTxs.find? (fun gas => gas.hash == h)).isSome)
  let gasTransactions := uniqueHashes.foldl (fun acc h =>
    match receiptOf h with
    | .error _ => acc
    | .ok none => acc
    | .ok (some receipt) =>
      let timestamp :=
        ((transactions.find? (fun tx => tx.hash == h)).map (·.timestamp)).getD
          nowMs
      let ethPrice := getEthPriceAtTime s.prices (ethFetch timestamp) timestamp
      let gasCost := gasCostStrings receipt.gasUsed receipt.effectiveGasPrice
        ethPrice
      acc ++ [{ id := h ++ "_gas"
                wallet_address := walletAddress
                hash := h
                block_num := receipt.blockNumber
                gas_used := receipt.gasUsed
                gas_price := receipt.effectiveGasPrice
                gas_cost_eth := gasCost.1
                gas_cost_usd := gasCost.2
                timestamp := timestamp
                created_at := nowMs }]) []
  if gasTransactions.length > 0 then
    { s with gasTxs := addGasTransactions s.gasTxs gasTransactions }
  else s

/-- Embedding of `importHistoricalPrices` (part_000 lines 764-836). Note
`[...new Set(transactions.map(tx => ({asset, contract})))]` deduplicates
object references, hence nothing: the outer loop runs once per transfer of
the wallet, and the inner loop over the matching transfers re-processes
each transfer several times; the cache-hit branch makes the repeats
harmless. Per-transfer failures are caught and skipped. -/
def importHistoricalPricesRun (walletAddress network : String) (nowMs : Int)
    (priceFetch : RawTransaction → Except JsError PriceSeries)
    (s : Store) : Store :=
  let transactions := s.rawTxs.filter (fun tx =>
    tx.wallet_address == walletAddress)
  let uniqueAssets := transactions.map (fun tx => (tx.asset, tx.contract_address))
  let prices' := uniqueAssets.foldl (fun ps pair =>
    let assetTransactions := transactions.filter (fun tx =>
      tx.asset == pair.1 && tx.contract_address == pair.2)
    assetTransactions.foldl (fun ps tx =>
      (priceBackfillStep network nowMs (priceFetch tx) ps tx).1) ps) s.prices
  { s with prices := prices' }

/-- The external-world outcomes one full import consumes. -/
structure ImportOracle where
  transferResponses : List (Except JsError TransfersPage)
  receiptOf : String → Except JsError (Option Receipt)
  ethFetch : Int → Except JsError PriceSeries
  priceFetch : RawTransaction → Except JsError PriceSeries

/-- Embedding of `importTransactionsForWallet` (part_000 lines 519-601):
validate the API key, compute the resumption cursor, run Stages 1-3 in
order, and update the wallet sync timestamp only when no stage threw; a
thrown error skips finalization and is returned alongside the store as
already persisted (nothing is rolled back). -/
def importTransactionsForWallet (apiKey : String)
    (rules : List AddressClassification) (walletAddress network : String)
    (nowMs : Int) (o : ImportOracle) (s : Store) : Store × Option JsError :=
  if apiKey == "" then (s, some ⟨"API key is not configured", none⟩)
  else
    let r1 := importAssetTransfersRun rules walletAddress nowMs
      o.transferResponses s.rawTxs
    let s1 : Store := { s with rawTxs := r1.1 }
    match r1.2 with
    | some e => (s1, some e)
    | none =>
      let s2 := importGasFees walletAddress network nowMs o.receiptOf
        o.ethFetch s1
      let s3 := importHistoricalPricesRun walletAddress network nowMs
        o.priceFetch s2
      ({ s3 with wallets := updateWalletSync walletAddress nowMs s3.wallets },
       none)

/-! ## The two `getHistoricalPrices` variants (part_000 lines 947-966 and
1114-1157) -/

/-- The parsed JSON body of a price response: the series plus the optional
JSON-RPC `error` member `makeRequest` checks. -/
structure JsonBody where
  series : PriceSeries
  rpcError : Option (Int × String)
deriving DecidableEq, Repr

/-- The transport-level outcome of one HTTP attempt. -/
inductive HttpOutcome where
  | ok (body : JsonBody)
  | httpError (status : Nat) (statusText : String) (bodyText : String)
  | timeout (ms : Nat)
deriving DecidableEq, Repr

/-- The per-attempt operation `makeRequest` hands to `retryWithBackoff`
(part_000 lines 469-497): a non-2xx response throws
`"<ctx> request failed: <status> <text> - <body>"`, a timeout throws
`"Request timed out after <ms>ms"`, a JSON-RPC error member throws
`"<ctx> API error: <msg> (Code: <code>)"`. -/
def makeRequestOutcome (context : String) (h : HttpOutcome) :
    Except JsError PriceSeries :=
  match h with
  | .ok body =>
    match body.rpcError with
    | some (code, msg) =>
      .error ⟨context ++ " API error: " ++ msg ++ " (Code: " ++ toString code
        ++ ")", none⟩
    | none => .ok body.series
  | .httpError status statusText bodyText =>
    .error ⟨context ++ " request failed: " ++ toString status ++ " "
      ++ statusText ++ " - " ++ bodyText, none⟩
  | .timeout ms =>
    .error ⟨"Request timed out after " ++ toString ms ++ "ms", none⟩

/-- Embedding of `makeRequest`: the attempt outcomes (one per retry index)
run through `retryWithBackoff` with the shared delay. -/
def makeRequest (attempts : Nat → HttpOutcome) (context : String)
    (delay : ℚ) : Except JsError PriceSeries × List ℚ × ℚ :=
  retryWithBackoff (fun k => makeRequestOutcome context (attempts k)) delay

/-- The truthiness test `else if (contractAddress)`. -/
def contractTruthy : JSVal → Bool
  | .str c => c != ""
  | _ => false

/-- The pipeline variant of `getHistoricalPrices` (part_000 lines 947-966):
requests go through `makeRequest`, so a failed request — after the retry
policy — surfaces as an error to the caller; a non-ETH symbol without a
contract address throws before any request. -/
def getHistoricalPricesV2 (symbol : String) (contractAddress : JSVal)
    (attempts : Nat → HttpOutcome) (delay : ℚ) :
    Except JsError PriceSeries × List ℚ × ℚ :=
  if symbol == "ETH" then makeRequest attempts "Historical prices" delay
  else if contractTruthy contractAddress then
    makeRequest attempts "Historical prices" delay
  else
    (.error ⟨"Cannot fetch prices for " ++ symbol
      ++ " without contract address", none⟩, [], delay)

/-- The standalone variant of `getHistoricalPrices` (part_000 lines
1114-1157): the whole body sits in a `try` whose `catch` returns
`{ data: [] }`, and a non-2xx response also returns `{ data: [] }` — this
variant never throws. -/
def getHistoricalPricesV3 (symbol : String) (contractAddress : JSVal)
    (outcome : HttpOutcome) : PriceSeries :=
  if symbol == "ETH" || contractTruthy contractAddress then
    match outcome with
    | .ok body => body.series
    | .httpError _ _ _ => { data := [], currency := none }
    | .timeout _ => { data := [], currency := none }
  else { data := [], currency := none }

/-! ## Concrete example data used by counterexamples and witnesses -/

/-- A rule that matches neither the transfer's `from` address nor —
under the claim's strict reading — its (absent) contract address. -/
def exRulesC4 : List AddressClassification :=
  [{ name := "vendor"
     wallet_address := .str "0xccc"
     contract_address := .undef
     transaction_class := "Swap" }]

/-- An incoming native-asset transfer: `rawContract.address` is `null`
(as the chain data source reports for `external` transfers). -/
def exTransferC4 : Transfer :=
  { blockNum := "0x1"
    uniqueId := "u1"
    hash := "h1"
    fromA := .str "0xbbb"
    toA := .str "0xaaa"
    value := some "1"
    asset := "ETH"
    category := "external"
    rawContract_address := .null
    rawContract_decimal := none
    metadata_blockTimestamp := some 0 }

/-- A stored price that is not an ETH price but matches the ETH lookup via
its `null` contract address. -/
def exPricesC10 : List HistoricalPrice :=
  [{ symbol := .str "USDC"
     contract_address := .null
     network := .str "eth-mainnet"
     price := "0.99"
     currency := "usd"
     timestamp := 0
     source := "manual"
     created_at := 0 }]

/-- The merge key of `addHistoricalPrices` as the claim states it: same
symbol (both present and equal) or same contract address (both present and
equal), same network, same timestamp. -/
def claimTupleMatches (p q : HistoricalPrice) : Bool :=
  ((match p.symbol, q.symbol with
    | .str a, .str b => a == b
    | _, _ => false) ||
   (match p.contract_address, q.contract_address with
    | .str a, .str b => a == b
    | _, _ => false)) &&
  p.network == q.network && p.timestamp == q.timestamp

/-- A stored price with symbol `A` and no contract address. -/
def priceA : HistoricalPrice :=
  { symbol := .str "A"
    contract_address := .undef
    network := .str "arb-mainnet"
    price := "1"
    currency := "usd"
    timestamp := 0
    source := "manual"
    created_at := 0 }

/-- An incoming price with a different symbol `B` and no contract address,
at the same network and timestamp as `priceA`. -/
def priceB : HistoricalPrice :=
  { priceA with symbol := .str "B", price := "2" }

/-- An incoming price genuinely matching `priceA` on its symbol. -/
def priceC : HistoricalPrice :=
  { priceA with price := "3" }

/-- An always-429 operation for the retry-policy witness. -/
def exOp429 : Nat → Except JsError Unit := fun _ =>
  .error { message := "Asset transfers request failed: 429 Too Many Requests"
           status := none }

/-- A stored transfer whose `block_num` parses to 0 (a genesis-block
transfer). -/
def exTxBlock0 : RawTransaction :=
  { id := "0x0_u0"
    wallet_address := "w"
    block_num := "0x0"
    unique_id := "u0"
    hash := "h0"
    from_address := .str "a"
    to_address := .str "w"
    value := "1"
    asset := "ETH"
    category := "external"
    contract_address := .undef
    decimals := 18
    timestamp := 0
    transaction_class := "OtherIncome"
    created_at := 0 }

/-- A stored transfer at block `0x1a` (26). -/
def exTxBlock1a : RawTransaction :=
  { exTxBlock0 with id := "0x1a_u1", block_num := "0x1a", unique_id := "u1" }

/-- An oracle describing an external world with no transfer pages, no
receipts and failing price endpoints. -/
def exOracleEmpty : ImportOracle :=
  { transferResponses := []
    receiptOf := fun _ => .ok none
    ethFetch := fun _ => .error { message := "offline", status := none }
    priceFetch := fun _ => .error { message := "offline", status := none } }

/-- A store holding a single wallet `w` and nothing else. -/
def exStoreW : Store :=
  { wallets := [{ address := "w", name := none, last_sync := none }]
    rawTxs := []
    gasTxs := []
    prices := [] }

/-! # Claim C5: gas cost arithmetic -/

/-- C5: `calculateGasCost` computes `ethCost = gasUsed × gasPrice ÷ 10^18`
with hex-parsed inputs and exact decimal arithmetic (the division by
`10^18` never rounds, since the product is an integer), rendered to 18
decimal places, and `usdCost = ethCost × ethPrice` rendered to 2 decimal
places; in particular `calculateGasCost "0x5208" "0x3B9ACA00" "2000"`
returns `ethCost = "0.000021000000000000"` and `usdCost = "0.04"`. -/
theorem c5_gas_cost_arithmetic :
    (calculateGasCost "0x5208" "0x3B9ACA00" "2000"
      = some { ethCost := "0.000021000000000000", usdCost := "0.04" })
    ∧ (∀ gh ph pr g p q, parseHexBN? gh = some g → parseHexBN? ph = some p →
        parseDecBN? pr = some q →
        Dec.div18RoundDown (Dec.mul ⟨g, 0⟩ ⟨p, 0⟩) ⟨10 ^ 18, 0⟩ = ⟨g * p, 18⟩
        ∧ (⟨g * p, 18⟩ : Dec).toQ = (g : ℚ) * (p : ℚ) / (10 : ℚ) ^ 18
        ∧ calculateGasCost gh ph pr
            = some { ethCost := Dec.toFixed 18 ⟨g * p, 18⟩,
                     usdCost := Dec.toFixed 2 (Dec.mul ⟨g * p, 18⟩ q) }) := by
  refine ⟨by decide, ?_⟩
  intro gh ph pr g p q hg hp hq
  have h18 : (0 : ℕ) < 10 ^ 18 := by positivity
  have hdiv : Dec.div18RoundDown (Dec.mul ⟨g, 0⟩ ⟨p, 0⟩) ⟨10 ^ 18, 0⟩
      = ⟨g * p, 18⟩ := by
    simp [Dec.div18RoundDown, Dec.mul, Nat.mul_div_cancel _ h18]
  refine ⟨hdiv, by simp [Dec.toQ], ?_⟩
  simp only [calculateGasCost, hg, hp, hq, hdiv]

/-- Witness for C5 at the specification's concrete test vector. -/
theorem c5_witness :
    calculateGasCost "0x5208" "0x3B9ACA00" "2000"
      = some { ethCost := Dec.toFixed 18 ⟨21000 * 1000000000, 18⟩,
               usdCost := Dec.toFixed 2 (Dec.mul ⟨21000 * 1000000000, 18⟩ ⟨2000, 0⟩) } :=
  (c5_gas_cost_arithmetic.2 "0x5208" "0x3B9ACA00" "2000" 21000 1000000000
    ⟨2000, 0⟩ (by decide) (by decide) (by decide)).2.2

/-! # Claim C4: classification -/

/-- C4 counterexample: the claim predicts `OtherIncome` (no rule matches
under present-field equality), but the code returns the rule's `Swap`:
`c.contract_address?.toLowerCase() === transfer.rawContract?.address?.toLowerCase()`
is `undefined === undefined`, hence `true`, for a rule with no contract
address and a transfer with a `null` one. -/
theorem c4_counterexample :
    classifyTransaction exRulesC4 exTransferC4 "0xaaa" = "Swap"
    ∧ classifyClaimStrict exRulesC4 exTransferC4 "0xaaa" = "OtherIncome"
    ∧ (∀ c ∈ exRulesC4,
        presentLowerEq c.wallet_address exTransferC4.fromA = false
        ∧ presentLowerEq c.contract_address exTransferC4.rawContract_address
            = false) := by
  decide

/-- C4 amended: `classifyTransaction` selects the first rule under
JavaScript loose-presence matching — two absent values (`undefined` or
`null`) compare equal after optional chaining, present strings compare
case-insensitively — and then resolves by direction with the `OtherIncome`
and `Withdraw` defaults exactly as the claim states. -/
theorem c4_amended_classification : ∀ rules t owner,
    classifyTransaction rules t owner = classifyClaimAmended rules t owner := by
  intro rules t owner
  rfl

/-! # Claim C10: default ETH price -/

/-- C10 counterexample: no cached ETH price exists and the remote fetch
fails, yet the result is `"0.99"`, not the default `"2000"` — the cache
lookup also hits on `price.contract_address === null`. -/
theorem c10_counterexample :
    getEthPriceAtTime exPricesC10
      (.error { message := "boom", status := none }) 0 = "0.99"
    ∧ (∀ p ∈ exPricesC10, p.symbol ≠ JSVal.str "ETH")
    ∧ ("0.99" : String) ≠ "2000" := by
  decide

/-- C10 amended: `getEthPriceAtTime` never throws (it is a total function
of its cache, fetch outcome and timestamp), and whenever the cache lookup
(symbol `"ETH"` or a `null` contract address, network `eth-mainnet`,
within five minutes) misses and the fetch fails or returns an empty
series, it returns the fixed default `"2000"`. -/
theorem c10_amended_default_price : ∀ prices fetchOutcome timeMs,
    findExistingPrice prices "ETH" .null "eth-mainnet" timeMs = none →
    ((∃ e, fetchOutcome = Except.error e) ∨
      (∃ cur, fetchOutcome
        = Except.ok ({ data := [], currency := cur } : PriceSeries))) →
    getEthPriceAtTime prices fetchOutcome timeMs = "2000" := by
  intro prices fetchOutcome timeMs hmiss hfail
  rcases hfail with ⟨e, rfl⟩ | ⟨cur, rfl⟩ <;> simp [getEthPriceAtTime, hmiss]

/-- Witness for C10 at an empty cache and a failing fetch. -/
theorem c10_witness :
    getEthPriceAtTime [] (.error { message := "boom", status := none }) 0
      = "2000" :=
  c10_amended_default_price [] _ 0 (by decide) (Or.inl ⟨_, rfl⟩)

/-! # Claim C9: price source failure tolerance -/

/-- C9 counterexample: in the pipeline variant (part_000 lines 947-966),
`getHistoricalPrices` routes through `makeRequest`, so a plain HTTP 500
failure surfaces as a thrown error to the caller rather than an empty
series. -/
theorem c9_counterexample :
    (getHistoricalPricesV2 "ETH" .null
      (fun _ => .httpError 500 "Internal Server Error" "oops") 100).1
      = .error ⟨"Historical prices request failed: 500 Internal Server Error - oops",
                none⟩ := by
  decide

/-- C9 amended: the standalone variant of `getHistoricalPrices` (part_000
lines 1114-1157) is total — it never throws — and returns the empty series
`{ data: [] }` on every failed request (non-2xx response or transport
error/timeout); on a successful request with valid parameters it returns
the parsed body. In the pipeline variant failures instead propagate to the
per-item callers, which tolerate them. -/
theorem c9_amended_failure_tolerance : ∀ symbol c st stx txt ms body,
    getHistoricalPricesV3 symbol c (.httpError st stx txt)
      = { data := [], currency := none }
    ∧ getHistoricalPricesV3 symbol c (.timeout ms)
      = { data := [], currency := none }
    ∧ ((symbol == "ETH" || contractTruthy c) = true →
        getHistoricalPricesV3 symbol c (.ok body) = body.series) := by
  intro symbol c st stx txt ms body
  refine ⟨?_, ?_, ?_⟩
  · cases h : (symbol == "ETH" || contractTruthy c) <;>
      simp [getHistoricalPricesV3, h]
  · cases h : (symbol == "ETH" || contractTruthy c) <;>
      simp [getHistoricalPricesV3, h]
  · intro h
    simp [getHistoricalPricesV3, h]

/-- Witness for C9's amended theorem at a concrete failing and succeeding
outcome. -/
theorem c9_witness :
    getHistoricalPricesV3 "ETH" .null (.httpError 500 "ISE" "oops")
      = { data := [], currency := none }
    ∧ getHistoricalPricesV3 "ETH" .null
        (.ok { series := { data := [], currency := some "usd" },
               rpcError := none })
      = { data := [], currency := some "usd" } :=
  ⟨(c9_amended_failure_tolerance "ETH" .null 500 "ISE" "oops" 0
      { series := { data := [], currency := some "usd" }, rpcError := none }).1,
   (c9_amended_failure_tolerance "ETH" .null 500 "ISE" "oops" 0
      { series := { data := [], currency := some "usd" }, rpcError := none }).2.2
      (by decide)⟩

/-! # Claim C7: historical price merge semantics -/

/-- C7 counterexample: `addHistoricalPrices` replaces `priceA` with
`priceB` although the two do not match on the claim's tuple (their symbols
differ and neither has a contract address): the code's
`p.contract_address === price.contract_address` is `undefined === undefined`,
hence `true`. The non-matching stored record is thus not left unchanged. -/
theorem c7_counterexample :
    addHistoricalPrices [priceA] [priceB] = [priceB]
    ∧ claimTupleMatches priceA priceB = false
    ∧ priceA ≠ priceB := by
  decide

/-- C7 amended: `addHistoricalPrices` processes incoming records left to
right; each incoming record replaces the first stored record matching it
under `histPriceMatches` — JavaScript strict equality on
symbol-or-contract-address (where two identically-absent fields also
compare equal), network, and timestamp — and is appended when none
matches; all other stored records are left unchanged. -/
theorem c7_amended_merge : ∀ (existing : List HistoricalPrice) p ps i,
    (addHistoricalPrices existing (p :: ps)
      = addHistoricalPrices (addHistoricalPrices existing [p]) ps)
    ∧ (existing.findIdx? (fun q => histPriceMatches q p) = some i →
        addHistoricalPrices existing [p] = existing.set i p
        ∧ ∀ j, j ≠ i → (addHistoricalPrices existing [p])[j]? = existing[j]?)
    ∧ (existing.findIdx? (fun q => histPriceMatches q p) = none →
        addHistoricalPrices existing [p] = existing ++ [p]) := by
  intro existing p ps i
  refine ⟨rfl, ?_, ?_⟩
  · intro hidx
    have hset : addHistoricalPrices existing [p] = existing.set i p := by
      simp [addHistoricalPrices, hidx]
    refine ⟨hset, ?_⟩
    intro j hj
    rw [hset]
    exact List.getElem?_set_ne (fun h => hj h.symm)
  · intro hidx
    simp [addHistoricalPrices, hidx]

/-- Witness for C7's amended theorem: `priceC` matches `priceA` on its
symbol and replaces it in place. -/
theorem c7_witness :
    addHistoricalPrices [priceA] [priceC] = [priceA].set 0 priceC
    ∧ addHistoricalPrices [priceA, priceB] [priceC]
      = [priceA, priceB].set 0 priceC :=
  ⟨((c7_amended_merge [priceA] priceC [] 0).2.1 (by decide)).1,
   ((c7_amended_merge [priceA, priceB] priceC [] 0).2.1 (by decide)).1⟩

/-! # Claim C6: price cache tolerance -/

/-- C6: during the Stage-3 price backfill, a transfer whose timestamp lies
within five minutes (inclusive, absolute difference) of an already-stored
price for the same symbol (or the same contract address) and the same
network takes the cache-hit branch of `priceBackfillStep`: no network
fetch is performed and the price store is returned unchanged. -/
theorem c6_price_cache_tolerance :
    ∀ (network : String) (nowMs : Int) fetchOutcome
      (prices : List HistoricalPrice) (tx : RawTransaction)
      (p : HistoricalPrice), p ∈ prices →
    (p.symbol = JSVal.str tx.asset ∨
      (∃ c, p.contract_address = JSVal.str c
        ∧ tx.contract_address = JSVal.str c)) →
    p.network = JSVal.str network →
    (p.timestamp - tx.timestamp).natAbs ≤ 300000 →
    priceBackfillStep network nowMs fetchOutcome prices tx = (prices, false) := by
  intro network nowMs fetchOutcome prices tx p hmem hkey hnet htime
  have hpred : ((p.symbol.strictEq (.str tx.asset) ||
      p.contract_address.strictEq tx.contract_address) &&
      p.network.strictEq (.str network) &&
      decide ((p.timestamp - tx.timestamp).natAbs ≤ 300000)) = true := by
    rcases hkey with hsym | ⟨c, hpc, htc⟩
    · simp [hsym, hnet, JSVal.strictEq, htime]
    · simp [hpc, htc, hnet, JSVal.strictEq, htime]
  have hsome : (findExistingPrice prices tx.asset tx.contract_address network
      tx.timestamp).isSome := by
    rw [findExistingPrice, List.find?_isSome]
    exact ⟨p, hmem, hpred⟩
  simp [priceBackfillStep, hsome]

/-- Witness for C6: a cached price for the same symbol, network and
timestamp window suppresses the fetch. -/
theorem c6_witness :
    priceBackfillStep "arb-mainnet" 0
      (.error { message := "must not be fetched", status := none })
      [priceA]
      { id := "0x1_u", wallet_address := "w", block_num := "0x1",
        unique_id := "u", hash := "h", from_address := .str "a",
        to_address := .str "w", value := "1", asset := "A",
        category := "erc20", contract_address := .undef, decimals := 18,
        timestamp := 240000, transaction_class := "OtherIncome",
        created_at := 0 }
      = ([priceA], false) :=
  c6_price_cache_tolerance "arb-mainnet" 0 _ [priceA] _ priceA
    (by decide) (Or.inl (by decide)) (by decide) (by decide)

/-! # Claim C2: resumption cursor -/

/-- The hex cursor string is never empty, so the `if (fromBlock)`
truthiness guard always keeps it. -/
theorem natToHex_ne_empty (n : Nat) : (natToHex n == "") = false := by
  rw [beq_eq_false_iff_ne]
  intro h
  simpa [natToHex] using congrArg String.data h

/-- Every Stage-1 request carries the loop-invariant `fromBlock` cursor
(provided the cursor, when present, is non-empty). -/
theorem stage1Requests_fromBlock (address : String) (fb : Option String)
    (hfb : ∀ s, fb = some s → (s == "") = false) :
    ∀ rs cursor req, req ∈ stage1Requests address fb rs cursor →
      req.fromBlock = fb := by
  intro rs
  induction rs with
  | nil => intro cursor req h; simp [stage1Requests] at h
  | cons r rest ih =>
    intro cursor req h
    rw [stage1Requests.eq_def] at h
    rcases List.mem_cons.mp h with hhead | htail
    · subst hhead
      cases fb with
      | none => rfl
      | some s => simp [getAssetTransfersParams, hfb s rfl]
    · cases r with
      | error e => simp at htail
      | ok page =>
        have htail' : req ∈ (match page.pageKey with
            | none => ([] : List AssetTransferParams)
            | some pk => stage1Requests address fb rest (some pk)) := htail
        cases hpk : page.pageKey with
        | none => rw [hpk] at htail'; simp at htail'
        | some pk => rw [hpk] at htail'; exact ih (some pk) req htail'

/-- C2 counterexample: a wallet whose stored transfers all sit at block 0
has prior transfers, yet the import omits `fromBlock` and re-requests from
genesis (`latestBlockNum > 0` fails). -/
theorem c2_counterexample :
    computeFromBlock [exTxBlock0] = none
    ∧ ([exTxBlock0] : List RawTransaction) ≠ []
    ∧ maxParsedBlock [exTxBlock0] = some 0 := by
  decide

/-- C2 amended: when the stored transfers' maximum parsed block number is
`N > 0`, the import passes `fromBlock = "0x" + hex(N)` to every Stage-1
transfer request; when there are no stored transfers (and likewise when
every stored block number parses to 0 or fails to parse) the `fromBlock`
parameter is omitted and the import requests from genesis. -/
theorem c2_amended_resumption :
    ∀ (txs : List RawTransaction) (N : Nat) (address : String)
      (rs : List (Except JsError TransfersPage)),
    (maxParsedBlock txs = some N → N > 0 → txs ≠ [] →
      computeFromBlock txs = some (natToHex N)
      ∧ ∀ req ∈ stage1Requests address (computeFromBlock txs) rs none,
          req.fromBlock = some (natToHex N))
    ∧ (txs = [] →
        computeFromBlock txs = none
        ∧ ∀ req ∈ stage1Requests address (computeFromBlock txs) rs none,
            req.fromBlock = none) := by
  intro txs N address rs
  constructor
  · intro hmax hN hne
    have hcfb : computeFromBlock txs = some (natToHex N) := by
      cases txs with
      | nil => exact absurd rfl hne
      | cons t ts => simp [computeFromBlock, hmax, hN]
    refine ⟨hcfb, ?_⟩
    intro req hreq
    rw [hcfb] at hreq
    have := stage1Requests_fromBlock address (some (natToHex N))
      (fun s hs => by cases hs; exact natToHex_ne_empty N) rs none req hreq
    rw [this]
  · intro he
    subst he
    refine ⟨rfl, ?_⟩
    intro req hreq
    have hcfb : computeFromBlock ([] : List RawTransaction) = none := rfl
    rw [hcfb] at hreq
    have := stage1Requests_fromBlock address none
      (fun s hs => by cases hs) rs none req hreq
    rw [this]

/-- Witness for C2 at a store holding one transfer at block `0x1a`. -/
theorem c2_witness :
    computeFromBlock [exTxBlock1a] = some (natToHex 26)
    ∧ ∀ req ∈ stage1Requests "0xw" (computeFromBlock [exTxBlock1a])
        [Except.ok ⟨[], none⟩] none, req.fromBlock = some (natToHex 26) :=
  (c2_amended_resumption [exTxBlock1a] 26 "0xw" [Except.ok ⟨[], none⟩]).1
    (by decide) (by decide) (by decide)

/-! # Claim C3: rate-limiter retry policy -/

/-- The retry loop sleeps at most `remaining` times. -/
theorem retryAux_waits_len {α : Type} (op : Nat → Except JsError α) :
    ∀ r d, (retryWithBackoffAux op r d).2.1.length ≤ r := by
  intro r
  induction r with
  | zero =>
    intro d
    rw [retryWithBackoffAux]
    cases op maxRetries <;> simp
  | succ r ih =>
    intro d
    rw [retryWithBackoffAux]
    cases op (maxRetries - (r + 1)) with
    | ok v => simp
    | error e =>
      by_cases h : (isRateLimit e || isTimeoutErr e) = true
      · simpa [h] using Nat.succ_le_succ (ih (min 10000 (d * 2)))
      · simp only [Bool.not_eq_true] at h
        simp [h]

/-- C3: a request failing as rate-limited (429) or timeout is retried at
most 3 times, each retry waiting `delay + 2000·retryCount` ms with the
shared delay doubled (capped at 10000) before the wait; three consecutive
429 failures produce exactly 3 strictly increasing waits and the 4th
consecutive failure's error is surfaced to the caller; a failure that is
neither rate-limit nor timeout is surfaced immediately with no retry and
no wait. -/
theorem c3_retry_policy : ∀ (α : Type) (op : Nat → Except JsError α)
    (d0 : ℚ) (es : Nat → JsError),
    ((retryWithBackoff op d0).2.1.length ≤ maxRetries)
    ∧ ((∀ k, k ≤ 3 → op k = .error (es k)) →
        (∀ k, k ≤ 2 → (isRateLimit (es k) || isTimeoutErr (es k)) = true) →
        0 ≤ d0 →
        (retryWithBackoff op d0).1 = .error (es 3)
        ∧ (retryWithBackoff op d0).2.1
            = [min 10000 (d0 * 2) + 0 * 2000,
               min 10000 (min 10000 (d0 * 2) * 2) + 1 * 2000,
               min 10000 (min 10000 (min 10000 (d0 * 2) * 2) * 2) + 2 * 2000]
        ∧ (retryWithBackoff op d0).2.1.length = 3
        ∧ (retryWithBackoff op d0).2.1.Chain' (· < ·))
    ∧ (∀ e, op 0 = .error e → (isRateLimit e || isTimeoutErr e) = false →
        retryWithBackoff op d0 = (.error e, [], d0)) := by
  intro α op d0 es
  refine ⟨retryAux_waits_len op maxRetries d0, ?_, ?_⟩
  · intro hop hretry hd0
    have h0 := hop 0 (by norm_num)
    have h1 := hop 1 (by norm_num)
    have h2 := hop 2 (by norm_num)
    have h3 := hop 3 (by norm_num)
    have r0 := hretry 0 (by norm_num)
    have r1 := hretry 1 (by norm_num)
    have r2 := hretry 2 (by norm_num)
    have heval : retryWithBackoff op d0
        = (.error (es 3),
           [min 10000 (d0 * 2),
            min 10000 (min 10000 (d0 * 2) * 2) + 2000,
            min 10000 (min 10000 (min 10000 (d0 * 2) * 2) * 2) + 4000],
           min 10000 (min 10000 (min 10000 (d0 * 2) * 2) * 2)) := by
      simp only [retryWithBackoff, retryWithBackoffAux, maxRetries]
      norm_num [h0, h1, h2, h3, r0, r1, r2]
    rw [heval]
    set d1 := min (10000 : ℚ) (d0 * 2) with hd1
    set d2 := min (10000 : ℚ) (d1 * 2) with hd2
    set d3 := min (10000 : ℚ) (d2 * 2) with hd3
    have hd1nn : 0 ≤ d1 := le_min_iff.mpr ⟨by norm_num, by linarith⟩
    have h12 : d1 ≤ d2 :=
      le_min_iff.mpr ⟨min_le_left _ _, by linarith⟩
    have hd2nn : 0 ≤ d2 := le_trans hd1nn h12
    have h23 : d2 ≤ d3 :=
      le_min_iff.mpr ⟨min_le_left _ _, by linarith⟩
    refine ⟨rfl, by norm_num, rfl, ?_⟩
    simp only [List.chain'_cons, List.chain'_singleton, and_true]
    constructor
    · linarith
    · linarith
  · intro e hop0 hret
    simp only [retryWithBackoff, retryWithBackoffAux, maxRetries]
    norm_num [hop0, hret]

/-- Witness for C3: three consecutive 429 failures at starting delay 100
yield 3 strictly increasing waits and surface the error. -/
theorem c3_witness :
    (retryWithBackoff exOp429 100).1
      = .error { message := "Asset transfers request failed: 429 Too Many Requests"
                 status := none }
    ∧ (retryWithBackoff exOp429 100).2.1
        = [min 10000 ((100 : ℚ) * 2) + 0 * 2000,
           min 10000 (min 10000 ((100 : ℚ) * 2) * 2) + 1 * 2000,
           min 10000 (min 10000 (min 10000 ((100 : ℚ) * 2) * 2) * 2) + 2 * 2000]
    ∧ (retryWithBackoff exOp429 100).2.1.length = 3
    ∧ (retryWithBackoff exOp429 100).2.1.Chain' (· < ·) :=
  (c3_retry_policy Unit exOp429 100
    (fun _ => { message := "Asset transfers request failed: 429 Too Many Requests"
                status := none })).2.1
    (fun _ _ => rfl) (fun _ _ => by decide) (by norm_num)

/-! # Claim C1: dedup and idempotence of transfer import -/

/-- The store append only ever appends. -/
theorem addRawTransactions_append :
    ∀ (l e : List RawTransaction), ∃ add, addRawTransactions e l = e ++ add := by
  intro l
  induction l with
  | nil => intro e; exact ⟨[], by simp [addRawTransactions]⟩
  | cons tx l ih =>
    intro e
    have hstep : addRawTransactions e (tx :: l)
        = addRawTransactions (addRawStep e tx) l := rfl
    by_cases h : (e.find? (fun t => t.id == tx.id)).isSome
    · rcases ih e with ⟨add, ha⟩
      exact ⟨add, by rw [hstep, addRawStep, if_pos h, ha]⟩
    · rcases ih (e ++ [tx]) with ⟨add, ha⟩
      exact ⟨tx :: add, by rw [hstep, addRawStep, if_neg h, ha]; simp⟩

/-- Records already in the store survive the append. -/
theorem mem_addRawTransactions {x : RawTransaction}
    {e l : List RawTransaction} (h : x ∈ e) : x ∈ addRawTransactions e l := by
  rcases addRawTransactions_append l e with ⟨add, ha⟩
  rw [ha]
  exact List.mem_append_left _ h

/-- Every id of the incoming batch is present (on some record) after the
append: either a record with that id already existed, or the incoming
record itself was appended. -/
theorem addRawTransactions_id_mem :
    ∀ (l e : List RawTransaction) (tx : RawTransaction), tx ∈ l →
      ∃ r ∈ addRawTransactions e l, r.id = tx.id := by
  intro l
  induction l with
  | nil => intro e tx h; simp at h
  | cons hd l ih =>
    intro e tx hmem
    have hstep : addRawTransactions e (hd :: l)
        = addRawTransactions (addRawStep e hd) l := rfl
    rcases List.mem_cons.mp hmem with rfl | htl
    · by_cases h : (e.find? (fun t => t.id == tx.id)).isSome
      · rcases Option.isSome_iff_exists.mp h with ⟨r, hr⟩
        have hrid : r.id = tx.id := by simpa using List.find?_some hr
        have hrmem : r ∈ e := List.mem_of_find?_eq_some hr
        refine ⟨r, ?_, hrid⟩
        rw [hstep, addRawStep, if_pos h]
        exact mem_addRawTransactions hrmem
      · refine ⟨tx, ?_, rfl⟩
        rw [hstep, addRawStep, if_neg h]
        exact mem_addRawTransactions (List.mem_append_right _ (by simp))
    · rw [hstep]
      exact ih (addRawStep e hd) tx htl

/-- The append preserves distinctness of ids. -/
theorem addRawTransactions_nodup :
    ∀ (l e : List RawTransaction),
      (e.map RawTransaction.id).Nodup →
      ((addRawTransactions e l).map RawTransaction.id).Nodup := by
  intro l
  induction l with
  | nil => intro e h; simpa [addRawTransactions] using h
  | cons tx l ih =>
    intro e he
    have hstep : addRawTransactions e (tx :: l)
        = addRawTransactions (addRawStep e tx) l := rfl
    rw [hstep]
    apply ih
    rw [addRawStep]
    by_cases h : (e.find? (fun t => t.id == tx.id)).isSome
    · rw [if_pos h]; exact he
    · rw [if_neg h]
      have hnone : e.find? (fun t => t.id == tx.id) = none :=
        Option.not_isSome_iff_eq_none.mp h
      have hnotin : tx.id ∉ e.map RawTransaction.id := by
        intro hin
        rcases List.mem_map.mp hin with ⟨r, hrmem, hrid⟩
        have := List.find?_eq_none.mp hnone r hrmem
        simp [hrid] at this
      simp [List.nodup_append, he, hnotin]

/-- One page's import only appends to the raw-transaction store. -/
theorem importTransfersPage_append (rules : List AddressClassification)
    (w : String) (nowMs : Int) (s : List RawTransaction) (ts : List Transfer) :
    ∃ add, importTransfersPage rules w nowMs s ts = s ++ add := by
  rw [importTransfersPage]
  by_cases h : 0 < ((ts.filter (fun t =>
      !(s.find? (fun tx => tx.id == mkTxId t)).isSome)).map
      (transferToRaw rules w nowMs)).length
  · simp only [h, if_pos]
    exact addRawTransactions_append _ s
  · simp only [h, if_neg, not_false_iff]
    exact ⟨[], by simp⟩

/-- After importing a page, every transfer of the page has its composite
id on some stored record. -/
theorem importTransfersPage_ids (rules : List AddressClassification)
    (w : String) (nowMs : Int) (s : List RawTransaction) (ts : List Transfer)
    (t : Transfer) (ht : t ∈ ts) :
    ∃ r ∈ importTransfersPage rules w nowMs s ts, r.id = mkTxId t := by
  by_cases hin : (s.find? (fun tx => tx.id == mkTxId t)).isSome
  · rcases Option.isSome_iff_exists.mp hin with ⟨r, hr⟩
    have hrid : r.id = mkTxId t := by simpa using List.find?_some hr
    have hrmem : r ∈ s := List.mem_of_find?_eq_some hr
    rcases importTransfersPage_append rules w nowMs s ts with ⟨add, ha⟩
    exact ⟨r, by rw [ha]; exact List.mem_append_left _ hrmem, hrid⟩
  · have hmemf : t ∈ ts.filter (fun t =>
        !(s.find? (fun tx => tx.id == mkTxId t)).isSome) :=
      List.mem_filter.mpr ⟨ht, by simp [hin]⟩
    have hmemm : transferToRaw rules w nowMs t ∈ (ts.filter (fun t =>
        !(s.find? (fun tx => tx.id == mkTxId t)).isSome)).map
        (transferToRaw rules w nowMs) := List.mem_map_of_mem _ hmemf
    have hpos : 0 < ((ts.filter (fun t =>
        !(s.find? (fun tx => tx.id == mkTxId t)).isSome)).map
        (transferToRaw rules w nowMs)).length :=
      List.length_pos.mpr (by rintro hnil; rw [hnil] at hmemm; simp at hmemm)
    rcases addRawTransactions_id_mem _ s _ hmemm with ⟨r, hrmem, hrid⟩
    refine ⟨r, ?_, by rw [hrid]; rfl⟩
    rw [importTransfersPage]
    simp only [hpos, if_pos]
    exact hrmem

/-- A page all of whose transfer ids are already stored imports nothing. -/
theorem importTransfersPage_skip (rules : List AddressClassification)
    (w : String) (nowMs : Int) (s : List RawTransaction) (ts : List Transfer)
    (h : ∀ t ∈ ts, (s.find? (fun tx => tx.id == mkTxId t)).isSome) :
    importTransfersPage rules w nowMs s ts = s := by
  have hfil : ts.filter (fun t =>
      !(s.find? (fun tx => tx.id == mkTxId t)).isSome) = [] := by
    rw [List.filter_eq_nil_iff]
    intro t htm
    simp [h t htm]
  rw [importTransfersPage, hfil]
  simp

/-- One page's import preserves distinctness of ids. -/
theorem importTransfersPage_nodup (rules : List AddressClassification)
    (w : String) (nowMs : Int) (s : List RawTransaction) (ts : List Transfer)
    (h : (s.map RawTransaction.id).Nodup) :
    ((importTransfersPage rules w nowMs s ts).map RawTransaction.id).Nodup := by
  rw [importTransfersPage]
  by_cases hpos : 0 < ((ts.filter (fun t =>
      !(s.find? (fun tx => tx.id == mkTxId t)).isSome)).map
      (transferToRaw rules w nowMs)).length
  · simp only [hpos, if_pos]
    exact addRawTransactions_nodup _ s h
  · simp only [hpos, if_neg, not_false_iff]
    exact h

/-- The pagination loop only appends to the raw-transaction store. -/
theorem importAssetTransfersRun_append (rules : List AddressClassification)
    (w : String) (nowMs : Int) :
    ∀ (rs : List (Except JsError TransfersPage)) (s : List RawTransaction),
      ∃ add, (importAssetTransfersRun rules w nowMs rs s).1 = s ++ add := by
  intro rs
  induction rs with
  | nil => intro s; exact ⟨[], by simp [importAssetTransfersRun]⟩
  | cons r rest ih =>
    intro s
    cases r with
    | error e => exact ⟨[], by simp [importAssetTransfersRun]⟩
    | ok page =>
      rcases importTransfersPage_append rules w nowMs s page.transfers
        with ⟨add1, ha1⟩
      cases hpk : page.pageKey with
      | none =>
        exact ⟨add1, by rw [importAssetTransfersRun, hpk]; exact ha1⟩
      | some pk =>
        rcases ih (importTransfersPage rules w nowMs s page.transfers)
          with ⟨add2, ha2⟩
        refine ⟨add1 ++ add2, ?_⟩
        rw [importAssetTransfersRun, hpk, ha2, ha1, List.append_assoc]

/-- Stored records survive the pagination loop. -/
theorem mem_importAssetTransfersRun {x : RawTransaction}
    (rules : List AddressClassification) (w : String) (nowMs : Int)
    (rs : List (Except JsError TransfersPage)) {s : List RawTransaction}
    (h : x ∈ s) : x ∈ (importAssetTransfersRun rules w nowMs rs s).1 := by
  rcases importAssetTransfersRun_append rules w nowMs rs s with ⟨add, ha⟩
  rw [ha]
  exact List.mem_append_left _ h

/-- The pagination loop preserves distinctness of ids. -/
theorem importAssetTransfersRun_nodup (rules : List AddressClassification)
    (w : String) (nowMs : Int) :
    ∀ (rs : List (Except JsError TransfersPage)) (s : List RawTransaction),
      (s.map RawTransaction.id).Nodup →
      (((importAssetTransfersRun rules w nowMs rs s).1.map
        RawTransaction.id)).Nodup := by
  intro rs
  induction rs with
  | nil => intro s h; simpa [importAssetTransfersRun] using h
  | cons r rest ih =>
    intro s h
    cases r with
    | error e => simpa [importAssetTransfersRun] using h
    | ok page =>
      have h1 := importTransfersPage_nodup rules w nowMs s page.transfers h
      cases hpk : page.pageKey with
      | none => rw [importAssetTransfersRun, hpk]; exact h1
      | some pk => rw [importAssetTransfersRun, hpk]; exact ih _ h1

/-- Re-running the pagination loop on its own output changes nothing: every
page's transfers are already stored, so each page import is skipped. -/
theorem importAssetTransfersRun_idem (rules : List AddressClassification)
    (w : String) (nowMs : Int) :
    ∀ (rs : List (Except JsError TransfersPage)) (s : List RawTransaction),
      importAssetTransfersRun rules w nowMs rs
        ((importAssetTransfersRun rules w nowMs rs s).1)
      = ((importAssetTransfersRun rules w nowMs rs s).1,
         (importAssetTransfersRun rules w nowMs rs s).2) := by
  intro rs
  induction rs with
  | nil => intro s; rfl
  | cons r rest ih =>
    intro s
    cases r with
    | error e => rfl
    | ok page =>
      have hskip : ∀ (s' : List RawTransaction),
          (∀ t ∈ page.transfers, ∃ r ∈ s', r.id = mkTxId t) →
          importTransfersPage rules w nowMs s' page.transfers = s' := by
        intro s' hids
        apply importTransfersPage_skip
        intro t htm
        rcases hids t htm with ⟨r, hrmem, hrid⟩
        rw [List.find?_isSome]
        exact ⟨r, hrmem, by simp [hrid]⟩
      cases hpk : page.pageKey with
      | none =>
        have hrun : (importAssetTransfersRun rules w nowMs
            (Except.ok page :: rest) s).1
            = importTransfersPage rules w nowMs s page.transfers := by
          rw [importAssetTransfersRun, hpk]
        have hids : ∀ t ∈ page.transfers,
            ∃ r ∈ (importAssetTransfersRun rules w nowMs
              (Except.ok page :: rest) s).1, r.id = mkTxId t := by
          intro t htm
          rw [hrun]
          exact importTransfersPage_ids rules w nowMs s page.transfers t htm
        rw [importAssetTransfersRun, hskip _ hids, hpk]
        rw [importAssetTransfersRun, hpk]
      | some pk =>
        have hrun : (importAssetTransfersRun rules w nowMs
            (Except.ok page :: rest) s).1
            = (importAssetTransfersRun rules w nowMs rest
              (importTransfersPage rules w nowMs s page.transfers)).1 := by
          rw [importAssetTransfersRun, hpk]
        have hids : ∀ t ∈ page.transfers,
            ∃ r ∈ (importAssetTransfersRun rules w nowMs
              (Except.ok page :: rest) s).1, r.id = mkTxId t := by
          intro t htm
          rw [hrun]
          rcases importTransfersPage_ids rules w nowMs s page.transfers t htm
            with ⟨r, hrmem, hrid⟩
          exact ⟨r, mem_importAssetTransfersRun rules w nowMs rest hrmem, hrid⟩
        rw [importAssetTransfersRun, hskip _ hids, hpk]
        rw [importAssetTransfersRun, hpk]
        exact ih (importTransfersPage rules w nowMs s page.transfers)

/-- Stage 2 touches only the gas collection. -/
theorem importGasFees_preserves (w n : String) (nowMs : Int)
    (ro : String → Except JsError (Option Receipt))
    (ef : Int → Except JsError PriceSeries) (s : Store) :
    (importGasFees w n nowMs ro ef s).wallets = s.wallets
    ∧ (importGasFees w n nowMs ro ef s).rawTxs = s.rawTxs
    ∧ (importGasFees w n nowMs ro ef s).prices = s.prices := by
  rw [importGasFees]
  split
  · exact ⟨rfl, rfl, rfl⟩
  · exact ⟨rfl, rfl, rfl⟩

/-- Stage 3 touches only the price collection. -/
theorem importHistoricalPricesRun_preserves (w n : String) (nowMs : Int)
    (pf : RawTransaction → Except JsError PriceSeries) (s : Store) :
    (importHistoricalPricesRun w n nowMs pf s).wallets = s.wallets
    ∧ (importHistoricalPricesRun w n nowMs pf s).rawTxs = s.rawTxs
    ∧ (importHistoricalPricesRun w n nowMs pf s).gasTxs = s.gasTxs :=
  ⟨rfl, rfl, rfl⟩

/-- The raw-transaction store after one full import: unchanged when the
API key is missing, otherwise exactly the Stage-1 pagination result. -/
theorem pipeline_rawTxs (apiKey : String) (rules : List AddressClassification)
    (w network : String) (nowMs : Int) (o : ImportOracle) (s : Store) :
    (importTransactionsForWallet apiKey rules w network nowMs o s).1.rawTxs
      = if apiKey == "" then s.rawTxs
        else (importAssetTransfersRun rules w nowMs o.transferResponses
          s.rawTxs).1 := by
  by_cases hk : (apiKey == "") = true
  · simp [importTransactionsForWallet, hk]
  · simp only [Bool.not_eq_true] at hk
    simp only [importTransactionsForWallet, hk, Bool.false_eq_true, if_false]
    rcases hrun : importAssetTransfersRun rules w nowMs o.transferResponses
      s.rawTxs with ⟨raw', err⟩
    cases err with
    | none =>
      simp only []
      have h2 := importGasFees_preserves w network nowMs o.receiptOf o.ethFetch
        { s with rawTxs := raw' }
      have h3 := importHistoricalPricesRun_preserves w network nowMs
        o.priceFetch (importGasFees w network nowMs o.receiptOf o.ethFetch
          { s with rawTxs := raw' })
      rw [h3.2.1, h2.2.1]
    | some e => simp

/-! The C1 claim theorem. -/

/-- C1: transfer import is idempotent via global id dedup: the pagination
loop preserves "at most one stored record per id" (and establishes it from
a duplicate-free store), importing the same page of transfers twice leaves
the store of the first import unchanged, re-running the whole pagination
loop on its own output changes nothing, and re-running the full pipeline
with the same oracle adds no raw-transaction records. -/
theorem c1_transfer_import_dedup :
    ∀ (rules : List AddressClassification) (w : String) (nowMs : Int)
      (store : List RawTransaction) (rs : List (Except JsError TransfersPage))
      (ts : List Transfer) (i : String) (apiKey network : String)
      (o : ImportOracle) (s : Store),
    ((store.map RawTransaction.id).Nodup →
      ((importAssetTransfersRun rules w nowMs rs store).1.map
        RawTransaction.id).Nodup
      ∧ ((importAssetTransfersRun rules w nowMs rs store).1.map
        RawTransaction.id).count i ≤ 1)
    ∧ (importTransfersPage rules w nowMs
        (importTransfersPage rules w nowMs store ts) ts
        = importTransfersPage rules w nowMs store ts)
    ∧ (importAssetTransfersRun rules w nowMs rs
        ((importAssetTransfersRun rules w nowMs rs store).1)
        = ((importAssetTransfersRun rules w nowMs rs store).1,
           (importAssetTransfersRun rules w nowMs rs store).2))
    ∧ ((importTransactionsForWallet apiKey rules w network nowMs o
          ((importTransactionsForWallet apiKey rules w network nowMs o s).1)).1.rawTxs
        = (importTransactionsForWallet apiKey rules w network nowMs o s).1.rawTxs) := by
  intro rules w nowMs store rs ts i apiKey network o s
  refine ⟨?_, ?_, importAssetTransfersRun_idem rules w nowMs rs store, ?_⟩
  · intro hnd
    have h := importAssetTransfersRun_nodup rules w nowMs rs store hnd
    exact ⟨h, List.nodup_iff_count_le_one.mp h i⟩
  · apply importTransfersPage_skip
    intro t htm
    rcases importTransfersPage_ids rules w nowMs store ts t htm
      with ⟨r, hrmem, hrid⟩
    rw [List.find?_isSome]
    exact ⟨r, hrmem, by simp [hrid]⟩
  · rw [pipeline_rawTxs, pipeline_rawTxs]
    by_cases hk : (apiKey == "") = true
    · simp [hk]
    · simp only [Bool.not_eq_true] at hk
      simp only [hk, Bool.false_eq_true, if_false]
      exact congrArg Prod.fst
        (importAssetTransfersRun_idem rules w nowMs o.transferResponses
          s.rawTxs)

/-- Witness for C1: importing a page that repeats the same transfer twice
into an empty store yields no duplicate ids. -/
theorem c1_witness :
    (((importAssetTransfersRun [] "0xaaa" 0
        [Except.ok ⟨[exTransferC4, exTransferC4], none⟩] []).1.map
        RawTransaction.id).Nodup)
    ∧ ((importAssetTransfersRun [] "0xaaa" 0
        [Except.ok ⟨[exTransferC4, exTransferC4], none⟩] []).1.map
        RawTransaction.id).count "0x1_u1" ≤ 1 :=
  (c1_transfer_import_dedup [] "0xaaa" 0 []
    [Except.ok ⟨[exTransferC4, exTransferC4], none⟩] [] "0x1_u1" "" ""
    exOracleEmpty exStoreW).1 (by decide)

/-! # Claim C8: finalization and no-rollback -/

/-- If some wallet in the list has the given address, after
`updateWalletSync` some wallet with that address carries the new sync
timestamp. -/
theorem updateWalletSync_mem (w : String) (t : Int) :
    ∀ (ws : List Wallet), (∃ wl ∈ ws, wl.address = w) →
      ∃ wl' ∈ updateWalletSync w t ws, wl'.address = w
        ∧ wl'.last_sync = some t := by
  intro ws
  induction ws with
  | nil => rintro ⟨wl, hmem, _⟩; simp at hmem
  | cons w0 ws ih =>
    rintro ⟨wl, hmem, haddr⟩
    by_cases h : (w0.address == w) = true
    · refine ⟨{ w0 with last_sync := some t }, ?_, ?_, rfl⟩
      · rw [updateWalletSync, if_pos h]
        exact List.mem_cons_self _ _
      · simpa using h
    · rcases List.mem_cons.mp hmem with rfl | htl
      · exact absurd (by simp [haddr]) h
      · rcases ih ⟨wl, htl, haddr⟩ with ⟨wl', hm', ha', hs'⟩
        refine ⟨wl', ?_, ha', hs'⟩
        rw [updateWalletSync, if_neg h]
        exact List.mem_cons_of_mem _ hm'

/-- C8: `last_sync` is written exactly when Stages 1-3 all complete
without an unrecovered error: on success the final wallet list is the
input's with the sync timestamp set on the wallet (all stages preserve the
wallet list), and on failure the sync update is skipped, the error is
returned to the caller, and everything persisted before the failure is
kept — wallets, gas records and prices are untouched and the
raw-transaction store is only ever extended, never rolled back. -/
theorem c8_finalization_no_rollback :
    ∀ (apiKey : String) (rules : List AddressClassification)
      (w network : String) (nowMs : Int) (o : ImportOracle) (s : Store),
    ((importTransactionsForWallet apiKey rules w network nowMs o s).2 = none →
      (importTransactionsForWallet apiKey rules w network nowMs o s).1.wallets
        = updateWalletSync w nowMs s.wallets
      ∧ (∀ wl ∈ s.wallets, wl.address = w →
          ∃ wl' ∈ (importTransactionsForWallet apiKey rules w network nowMs
              o s).1.wallets,
            wl'.address = w ∧ wl'.last_sync = some nowMs))
    ∧ (∀ e, (importTransactionsForWallet apiKey rules w network nowMs o s).2
          = some e →
        (importTransactionsForWallet apiKey rules w network nowMs
          o s).1.wallets = s.wallets
        ∧ (importTransactionsForWallet apiKey rules w network nowMs
            o s).1.gasTxs = s.gasTxs
        ∧ (importTransactionsForWallet apiKey rules w network nowMs
            o s).1.prices = s.prices
        ∧ ∃ add, (importTransactionsForWallet apiKey rules w network nowMs
            o s).1.rawTxs = s.rawTxs ++ add) := by
  intro apiKey rules w network nowMs o s
  by_cases hk : (apiKey == "") = true
  · constructor
    · intro hnone
      simp [importTransactionsForWallet, hk] at hnone
    · intro e _
      refine ⟨?_, ?_, ?_, [], ?_⟩ <;> simp [importTransactionsForWallet, hk]
  · simp only [Bool.not_eq_true] at hk
    rcases hrun : importAssetTransfersRun rules w nowMs o.transferResponses
      s.rawTxs with ⟨raw', err⟩
    have hpipe : importTransactionsForWallet apiKey rules w network nowMs o s
        = match err with
          | some e => ({ s with rawTxs := raw' }, some e)
          | none =>
            let s1 : Store := { s with rawTxs := raw' }
            let s2 := importGasFees w network nowMs o.receiptOf o.ethFetch s1
            let s3 := importHistoricalPricesRun w network nowMs o.priceFetch s2
            ({ s3 with wallets := updateWalletSync w nowMs s3.wallets },
             none) := by
      simp only [importTransactionsForWallet, hk, Bool.false_eq_true, if_false,
        hrun]
      cases err <;> rfl
    cases err with
    | some e =>
      constructor
      · intro hnone
        rw [hpipe] at hnone
        simp at hnone
      · intro e' _
        rw [hpipe]
        refine ⟨rfl, rfl, rfl, ?_⟩
        rcases importAssetTransfersRun_append rules w nowMs
          o.transferResponses s.rawTxs with ⟨add, ha⟩
        rw [hrun] at ha
        exact ⟨add, ha⟩
    | none =>
      have h2 := importGasFees_preserves w network nowMs o.receiptOf o.ethFetch
        { s with rawTxs := raw' }
      have h3 := importHistoricalPricesRun_preserves w network nowMs
        o.priceFetch (importGasFees w network nowMs o.receiptOf o.ethFetch
          { s with rawTxs := raw' })
      have hwal : (importHistoricalPricesRun w network nowMs o.priceFetch
          (importGasFees w network nowMs o.receiptOf o.ethFetch
            { s with rawTxs := raw' })).wallets = s.wallets := by
        rw [h3.1, h2.1]
      constructor
      · intro _
        rw [hpipe]
        constructor
        · simp only []
          rw [hwal]
        · intro wl hmem haddr
          rcases updateWalletSync_mem w nowMs s.wallets ⟨wl, hmem, haddr⟩
            with ⟨wl', hm', ha', hs'⟩
          refine ⟨wl', ?_, ha', hs'⟩
          simp only []
          rw [hwal]
          exact hm'
      · intro e he
        rw [hpipe] at he
        simp at he

/-- Witness for C8: a successful import against an empty world stamps the
wallet's sync field. -/
theorem c8_witness :
    (importTransactionsForWallet "key" [] "w" "arb-mainnet" 5 exOracleEmpty
      exStoreW).1.wallets = updateWalletSync "w" 5 exStoreW.wallets
    ∧ ∃ wl' ∈ (importTransactionsForWallet "key" [] "w" "arb-mainnet" 5
        exOracleEmpty exStoreW).1.wallets,
        wl'.address = "w" ∧ wl'.last_sync = some 5 :=
  have h := (c8_finalization_no_rollback "key" [] "w" "arb-mainnet" 5
    exOracleEmpty exStoreW).1 (by decide)
  ⟨h.1, h.2 { address := "w", name := none, last_sync := none } (by decide) rfl⟩

end Catr
